import Mathlib

/-!
Shallow embedding of the quota aggregation engine of one-proxy-cloud
(management-layer quota configuration module).  The definitions mirror the
source of the quota config file: the provider adapters for Antigravity,
Codex and Gemini-CLI, the per-candidate fallback loop, and the registry
filter.  Helpers that live in the utils/quota module, which is not part of
the excerpted sources, are modelled from the specification and say so in
their doc comments.  The i18n translation function `t` is threaded through
as an abstract `String → String`; message keys are the literal strings the
source passes to it.
-/

/-- JS nullish coalescing `a ?? b` on optional values (none models both
`null` and `undefined`). -/
def jsCoalesce {α : Type} (a b : Option α) : Option α :=
  match a with
  | some x => some x
  | none => b

/-- A raw JSON value read from a field that is consumed as a number:
either a finite number, a string that parses to a finite number, a
NaN/Infinity number, or some other non-numeric value.  `Option NumInput`
adds the nullish case. -/
inductive NumInput where
  | num (q : ℚ)
  | numStr (q : ℚ)
  | nanOrInf
  | notNumeric
deriving DecidableEq

/-- Modelled from the spec: `normalizeNumberValue(v)` accepts numeric or
numeric-string input and returns the value, else missing; NaN/Infinity map
to missing.  (utils/quota is not in the excerpted sources.) -/
def normalizeNumberValue : Option NumInput → Option ℚ
  | some (NumInput.num q) => some q
  | some (NumInput.numStr q) => some q
  | _ => none

/-- Modelled from the spec: `normalizeQuotaFraction(v)` is
`normalizeNumberValue` restricted to [0,1]; out-of-range inputs map to
missing rather than being clamped. -/
def normalizeQuotaFraction (v : Option NumInput) : Option ℚ :=
  match normalizeNumberValue v with
  | some q => if 0 ≤ q ∧ q ≤ 1 then some q else none
  | none => none

/-- Whitespace-trimming on the character list of a string (structural, so
that concrete runs compute inside the kernel). -/
def trimChars (l : List Char) : List Char :=
  ((l.dropWhile Char.isWhitespace).reverse.dropWhile Char.isWhitespace).reverse

/-- Whitespace-trimming of a string, via its character list. -/
def strTrim (s : String) : String :=
  String.mk (trimChars s.data)

/-- Modelled from the spec: `normalizeStringValue(v)` trims and returns the
non-empty trimmed string, else missing. -/
def normalizeStringValue : Option String → Option String
  | none => none
  | some s => if strTrim s = "" then none else some (strTrim s)

/-- Modelled from the spec: `normalizeAuthIndexValue` is string
normalization with the shape rule that the auth index must be non-empty. -/
def normalizeAuthIndexValue (v : Option String) : Option String :=
  normalizeStringValue v

/-! ## Antigravity adapter: project id resolution (source lines 79-109) -/

def DEFAULT_ANTIGRAVITY_PROJECT_ID : String := "bamboo-precept-lgxtn"

/-- A nested `installed`/`web` object of the credential token file; `none`
fields model absent or nullish keys. -/
structure TokenFileSection where
  project_id : Option String
  projectId : Option String

/-- The parsed credential token file, restricted to the keys the resolver
reads.  `installed`/`web` are `none` when absent or not JSON objects. -/
structure TokenFileJson where
  project_id : Option String
  projectId : Option String
  installed : Option TokenFileSection
  web : Option TokenFileSection

/-- The downloaded token-file text: whitespace-only content, content that
JSON.parse rejects, or a parsed object. -/
inductive TokenFileText where
  | emptyContent
  | unparsable
  | parsed (j : TokenFileJson)

/-- Embedding of `resolveAntigravityProjectId` (source lines 79-109).  The
input is `none` when `authFilesApi.downloadText` threw, otherwise the
downloaded text.  Top-level `project_id`/`projectId` wins, then the
`installed` object, then the `web` object; every failure path falls back to
the hard-coded default project id. -/
def resolveAntigravityProjectId : Option TokenFileText → String
  | none => DEFAULT_ANTIGRAVITY_PROJECT_ID
  | some TokenFileText.emptyContent => DEFAULT_ANTIGRAVITY_PROJECT_ID
  | some TokenFileText.unparsable => DEFAULT_ANTIGRAVITY_PROJECT_ID
  | some (TokenFileText.parsed j) =>
    match normalizeStringValue (jsCoalesce j.project_id j.projectId) with
    | some s => s
    | none =>
      match j.installed.bind (fun i => normalizeStringValue (jsCoalesce i.project_id i.projectId)) with
      | some s => s
      | none =>
        match j.web.bind (fun w => normalizeStringValue (jsCoalesce w.project_id w.projectId)) with
        | some s => s
        | none => DEFAULT_ANTIGRAVITY_PROJECT_ID

/-! ## Antigravity adapter: quota fetch candidate loop (source lines 159-234) -/

/-- Mutable loop state of `fetchAntigravityQuota` (source lines 175-179). -/
structure AgState where
  lastError : String
  lastStatus : Option Nat
  priorityStatus : Option Nat
  hadSuccess : Bool
deriving DecidableEq

/-- The outcome of one candidate-URL request inside the quota loop,
abstracted over the group type `G`.  A `response` carries the HTTP status,
the message `getApiCallErrorMessage` would produce, and — for a 2xx body —
`none` when the payload's `models` field is missing or malformed, else the
group list `buildAntigravityQuotaGroups` builds from it (that builder lives
in utils/quota, outside the excerpted sources, so its output is carried
abstractly).  A `thrown` outcome models a transport/parse exception with
the optional status `getStatusFromError` extracts. -/
inductive AgCandidate (G : Type) where
  | response (statusCode : Nat) (errMessage : String) (groups : Option (List G))
  | thrown (message : String) (status : Option Nat)
deriving DecidableEq

/-- Result of the Antigravity fetch: a resolved value or a thrown
status-carrying error. -/
inductive AgResult (G : Type) where
  | success (groups : List G) (subscriptionTier : Option String)
  | error (message : String) (status : Option Nat)
deriving DecidableEq

def AgResult.isSuccess {G : Type} : AgResult G → Bool
  | AgResult.success _ _ => true
  | AgResult.error _ _ => false

/-- Instrumented outcome of the fetch: the result, whether
`subscriptionTierPromise` was awaited before the fetch settled, and how
many candidate URLs were actually requested. -/
structure AgOutcome (G : Type) where
  result : AgResult G
  tierAwaited : Bool
  candidatesTried : Nat
deriving DecidableEq

def emptyModelsKey : String := "antigravity_quota.empty_models"

def unknownErrorKey : String := "common.unknown_error"

def missingAuthIndexKey : String := "antigravity_quota.missing_auth_index"

/-- `priorityStatus ??= statusCode`, executed only for 403/404
(source lines 194-196 and 221-223). -/
def latchPriority (pri : Option Nat) (code : Nat) : Option Nat :=
  if code = 403 ∨ code = 404 then jsCoalesce pri (some code) else pri

/-- The post-loop epilogue (source lines 228-233): a prior genuine 2xx
degrades to a successful empty-groups result joined with the tier; else the
loop throws `createStatusError(lastError || t(unknown), priority ?? last)`
without awaiting the tier promise. -/
def agFinish {G : Type} (tr : String → String) (tier : Option String)
    (st : AgState) (tried : Nat) : AgOutcome G :=
  if st.hadSuccess then
    ⟨AgResult.success [] tier, true, tried⟩
  else
    ⟨AgResult.error (if st.lastError = "" then tr unknownErrorKey else st.lastError)
      (jsCoalesce st.priorityStatus st.lastStatus), false, tried⟩

/-- The candidate loop of `fetchAntigravityQuota` (source lines 181-233),
one iteration per candidate URL. -/
def agLoop {G : Type} (tr : String → String) (tier : Option String)
    (st : AgState) (tried : Nat) : List (AgCandidate G) → AgOutcome G
  | [] => agFinish tr tier st tried
  | c :: rest =>
    match c with
    | AgCandidate.response code msg groupsOpt =>
      if code < 200 ∨ 300 ≤ code then
        agLoop tr tier { st with lastError := msg, lastStatus := some code, priorityStatus := latchPriority st.priorityStatus code } (tried + 1) rest
      else
        match groupsOpt with
        | none =>
          agLoop tr tier { st with hadSuccess := true, lastError := tr emptyModelsKey }
            (tried + 1) rest
        | some gs =>
          if gs.isEmpty then
            agLoop tr tier { st with hadSuccess := true, lastError := tr emptyModelsKey }
              (tried + 1) rest
          else
            ⟨AgResult.success gs tier, true, tried + 1⟩
    | AgCandidate.thrown msg status =>
      match status with
      | some s =>
        if s ≠ 0 then
          agLoop tr tier { st with lastError := msg, lastStatus := some s, priorityStatus := latchPriority st.priorityStatus s } (tried + 1) rest
        else
          agLoop tr tier { st with lastError := msg } (tried + 1) rest
      | none => agLoop tr tier { st with lastError := msg } (tried + 1) rest

/-- Embedding of `fetchAntigravityQuota` (source lines 159-234).
`rawAuthIndex` models the coalesced `file.auth_index ?? file.authIndex`;
`tier` is the value `fetchAntigravitySubscriptionTier` eventually resolves
to (that helper never rejects); `cands` are the per-URL outcomes of the
candidate requests, in URL order.  Project-id resolution and body-building
precede the loop in the source and do not affect the loop's outcome. -/
def fetchAntigravityQuota {G : Type} (tr : String → String)
    (rawAuthIndex : Option String) (tier : Option String)
    (cands : List (AgCandidate G)) : AgOutcome G :=
  match normalizeAuthIndexValue rawAuthIndex with
  | none => ⟨AgResult.error (tr missingAuthIndexKey) none, false, 0⟩
  | some _ => agLoop tr tier ⟨"", none, none, false⟩ 0 cands

/-! ## Codex adapter: usage windows (source lines 236-285) -/

/-- A raw `primary_window`/`secondary_window` object of the Codex usage
payload, restricted to the fields the builder reads.  The reset fields are
abstracted as the label `formatCodexResetLabel` computes from them. -/
structure CodexUsageWindow where
  used_percent : Option NumInput
  usedPercent : Option NumInput
  resetLabelRaw : String
deriving DecidableEq

/-- Modelled from the spec: `formatCodexResetLabel` computes a human reset
label from the window's reset fields, "-" when unavailable; the reset
fields are abstracted as the precomputed label carried on the window. -/
def formatCodexResetLabel (w : CodexUsageWindow) : String :=
  w.resetLabelRaw

/-- A raw `rate_limit`/`code_review_rate_limit` object of the Codex usage
payload (dual-cased keys). -/
structure CodexRateLimit where
  primary_window : Option CodexUsageWindow
  primaryWindow : Option CodexUsageWindow
  secondary_window : Option CodexUsageWindow
  secondaryWindow : Option CodexUsageWindow
  limit_reached : Option Bool
  limitReached : Option Bool
  allowed : Option Bool
deriving DecidableEq

/-- The Codex usage payload, restricted to the rate-limit objects the
builder reads (dual-cased keys). -/
structure CodexUsagePayload where
  rate_limit : Option CodexRateLimit
  rateLimit : Option CodexRateLimit
  code_review_rate_limit : Option CodexRateLimit
  codeReviewRateLimit : Option CodexRateLimit
deriving DecidableEq

/-- A normalized per-window quota record. -/
structure CodexQuotaWindow where
  id : String
  label : String
  labelKey : String
  usedPercent : Option ℚ
  resetLabel : String
deriving DecidableEq

/-- Embedding of the inner `addWindow` helper (source lines 241-260); it
returns the record pushed for the window, or `none` when no window object
is present.  `isLimitReached` is `Boolean(limitReached) || allowed ===
false`, and `usedPercent` is the explicit normalized value if any, else 100
when the limit is reached and a reset label is available, else null. -/
def addWindow (tr : String → String) (id labelKey : String)
    (window : Option CodexUsageWindow) (limitReached : Option Bool)
    (allowed : Option Bool) : Option CodexQuotaWindow :=
  match window with
  | none => none
  | some w =>
    let resetLabel := formatCodexResetLabel w
    let usedPercentRaw := normalizeNumberValue (jsCoalesce w.used_percent w.usedPercent)
    let isLimitReached := (limitReached == some true) || (allowed == some false)
    let usedPercent :=
      match usedPercentRaw with
      | some v => some v
      | none => if isLimitReached && resetLabel != "-" then some (100 : ℚ) else none
    some { id := id, label := tr labelKey, labelKey := labelKey, usedPercent := usedPercent, resetLabel := resetLabel }

def primaryWindowKey : String := "codex_quota.primary_window"

def secondaryWindowKey : String := "codex_quota.secondary_window"

def codeReviewWindowKey : String := "codex_quota.code_review_window"

def primaryId : String := "primary"

def secondaryId : String := "secondary"

def codeReviewId : String := "code-review"

/-- Embedding of `buildCodexQuotaWindows` (source lines 236-285): coalesce
the dual-cased rate-limit objects, then build the `primary`, `secondary`
and `code-review` windows in order, keeping only the ones whose window
object is present. -/
def buildCodexQuotaWindows (tr : String → String) (payload : CodexUsagePayload) :
    List CodexQuotaWindow :=
  let rateLimit := jsCoalesce payload.rate_limit payload.rateLimit
  let codeReviewLimit := jsCoalesce payload.code_review_rate_limit payload.codeReviewRateLimit
  let w1 := addWindow tr primaryId primaryWindowKey
    (rateLimit.bind fun rl => jsCoalesce rl.primary_window rl.primaryWindow)
    (rateLimit.bind fun rl => jsCoalesce rl.limit_reached rl.limitReached)
    (rateLimit.bind fun rl => rl.allowed)
  let w2 := addWindow tr secondaryId secondaryWindowKey
    (rateLimit.bind fun rl => jsCoalesce rl.secondary_window rl.secondaryWindow)
    (rateLimit.bind fun rl => jsCoalesce rl.limit_reached rl.limitReached)
    (rateLimit.bind fun rl => rl.allowed)
  let w3 := addWindow tr codeReviewId codeReviewWindowKey
    (codeReviewLimit.bind fun rl => jsCoalesce rl.primary_window rl.primaryWindow)
    (codeReviewLimit.bind fun rl => jsCoalesce rl.limit_reached rl.limitReached)
    (codeReviewLimit.bind fun rl => rl.allowed)
  w1.toList ++ w2.toList ++ w3.toList

/-- The raw window objects `buildCodexQuotaWindows` feeds to `addWindow`,
in build order (used to trace an output window back to its source). -/
def payloadSourceWindows (payload : CodexUsagePayload) : List CodexUsageWindow :=
  let rateLimit := jsCoalesce payload.rate_limit payload.rateLimit
  let codeReviewLimit := jsCoalesce payload.code_review_rate_limit payload.codeReviewRateLimit
  (rateLimit.bind fun rl => jsCoalesce rl.primary_window rl.primaryWindow).toList ++
    (rateLimit.bind fun rl => jsCoalesce rl.secondary_window rl.secondaryWindow).toList ++
    (codeReviewLimit.bind fun rl => jsCoalesce rl.primary_window rl.primaryWindow).toList

/-! ## Gemini-CLI adapter (source lines 329-388) -/

/-- A raw entry of the payload's `buckets` array (dual-cased keys). -/
structure GeminiCliRawBucket where
  modelId : Option String
  model_id : Option String
  tokenType : Option String
  token_type : Option String
  remainingFraction : Option NumInput
  remaining_fraction : Option NumInput
  remainingAmount : Option NumInput
  remaining_amount : Option NumInput
  resetTime : Option String
  reset_time : Option String
deriving DecidableEq

/-- A parsed bucket after normalization and the fraction fallback. -/
structure GeminiCliParsedBucket where
  modelId : String
  tokenType : Option String
  remainingFraction : Option ℚ
  remainingAmount : Option ℚ
  resetTime : Option String
deriving DecidableEq

/-- Embedding of the per-bucket mapper inside `fetchGeminiCliQuota`
(source lines 361-384): entries without a model id map to `none`; else the
fraction is the normalized explicit fraction if any, falling back to 0 when
a remaining amount ≤ 0 is present, unknown when the amount is positive, 0
when no amount but a reset time is present, unknown otherwise. -/
def parseGeminiBucket (b : GeminiCliRawBucket) : Option GeminiCliParsedBucket :=
  match normalizeStringValue (jsCoalesce b.modelId b.model_id) with
  | none => none
  | some modelId =>
    let tokenType := normalizeStringValue (jsCoalesce b.tokenType b.token_type)
    let remainingFractionRaw := normalizeQuotaFraction (jsCoalesce b.remainingFraction b.remaining_fraction)
    let remainingAmount := normalizeNumberValue (jsCoalesce b.remainingAmount b.remaining_amount)
    let resetTime := normalizeStringValue (jsCoalesce b.resetTime b.reset_time)
    let fallbackFraction : Option ℚ :=
      match remainingAmount with
      | some amount => if amount ≤ 0 then some 0 else none
      | none =>
        match resetTime with
        | some _ => some 0
        | none => none
    some { modelId := modelId, tokenType := tokenType, remainingFraction := jsCoalesce remainingFractionRaw fallbackFraction, remainingAmount := remainingAmount, resetTime := resetTime }

/-- The `.map(...).filter(bucket => bucket !== null)` stage of
`fetchGeminiCliQuota` (source lines 360-385). -/
def parseGeminiBuckets (bs : List GeminiCliRawBucket) : List GeminiCliParsedBucket :=
  bs.filterMap parseGeminiBucket

/-- The fraction fallback of the bucket mapper (source lines 370-375), as a
named function of the normalized amount and reset time. -/
def geminiFallbackFraction (remainingAmount : Option ℚ) (resetTime : Option String) : Option ℚ :=
  match remainingAmount with
  | some amount => if amount ≤ 0 then some 0 else none
  | none =>
    match resetTime with
    | some _ => some 0
    | none => none

/-- The payload's `buckets` field as seen by the fetch: the whole payload
failed to parse, the field is missing or not an array, or it is an array of
raw buckets. -/
inductive GeminiPayloadBuckets where
  | noPayload
  | bucketsNotArray
  | bucketsArr (bs : List GeminiCliRawBucket)
deriving DecidableEq

/-- `Array.isArray(payload?.buckets) ? payload?.buckets : []`
(source line 357). -/
def geminiBucketsOf : GeminiPayloadBuckets → List GeminiCliRawBucket
  | GeminiPayloadBuckets.bucketsArr bs => bs
  | _ => []

/-- The authenticated-call result of the single Gemini-CLI quota request:
status code, the message `getApiCallErrorMessage` would produce for it, and
the parsed view of its body. -/
structure GeminiApiResult where
  statusCode : Nat
  errMessage : String
  payload : GeminiPayloadBuckets
deriving DecidableEq

/-- Result of the Gemini-CLI fetch: bucket states on success, or a thrown
status-carrying error. -/
inductive GeminiFetchOutcome (B : Type) where
  | success (buckets : List B)
  | error (message : String) (status : Option Nat)
deriving DecidableEq

def geminiMissingAuthIndexKey : String := "gemini_cli_quota.missing_auth_index"

def geminiMissingProjectIdKey : String := "gemini_cli_quota.missing_project_id"

/-- Embedding of `fetchGeminiCliQuota` (source lines 329-388).
`rawAuthIndex` models `file.auth_index ?? file.authIndex`; `projectId` is
the result of `resolveGeminiCliProjectId` (utils/quota, not excerpted) with
`none` for a falsy value; `build` abstracts `buildGeminiCliQuotaBuckets`
(utils/quota: a presentation-only grouping/sorting step). -/
def fetchGeminiCliQuota {B : Type} (tr : String → String)
    (build : List GeminiCliParsedBucket → List B)
    (rawAuthIndex : Option String) (projectId : Option String)
    (result : GeminiApiResult) : GeminiFetchOutcome B :=
  match normalizeAuthIndexValue rawAuthIndex with
  | none => GeminiFetchOutcome.error (tr geminiMissingAuthIndexKey) none
  | some _ =>
    match projectId with
    | none => GeminiFetchOutcome.error (tr geminiMissingProjectIdKey) none
    | some _ =>
      if result.statusCode < 200 ∨ 300 ≤ result.statusCode then
        GeminiFetchOutcome.error result.errMessage (some result.statusCode)
      else
        let buckets := geminiBucketsOf result.payload
        if buckets.isEmpty then
          GeminiFetchOutcome.success []
        else
          GeminiFetchOutcome.success (build (parseGeminiBuckets buckets))

/-! ## Provider registry: Gemini-CLI credential filter (source lines 438-454) -/

/-- A credential record as the registry filter sees it: provider type,
flags, and whether provider-specific persisted project context is present. -/
structure AuthFileItem where
  providerType : String
  disabled : Bool
  runtimeOnly : Bool
  hasPersistedProjectContext : Bool
deriving DecidableEq

def geminiCliType : String := "gemini-cli"

/-- Modelled from the spec: `isGeminiCliFile` is the provider-type match
for Gemini-CLI (utils/quota, not excerpted). -/
def isGeminiCliFile (f : AuthFileItem) : Bool :=
  f.providerType == geminiCliType

/-- Modelled from the spec: `isDisabledAuthFile` tests the disabled flag
(utils/quota, not excerpted). -/
def isDisabledAuthFile (f : AuthFileItem) : Bool :=
  f.disabled

/-- Modelled from the spec: `isRuntimeOnlyAuthFile` (utils/quota, not
excerpted).  Per the registry description, the Gemini-CLI filter
"additionally excludes runtime-only entries that have no persisted project
context", so the predicate holds iff the credential is runtime-only and
lacks persisted project context. -/
def isRuntimeOnlyAuthFile (f : AuthFileItem) : Bool :=
  f.runtimeOnly && !f.hasPersistedProjectContext

/-- Embedding of `GEMINI_CLI_CONFIG.filterFn` (source lines 441-442). -/
def geminiCliFilterFn (f : AuthFileItem) : Bool :=
  isGeminiCliFile f && !isRuntimeOnlyAuthFile f && !isDisabledAuthFile f

/-! ## Proof-support definitions for the Antigravity candidate loop -/

/-- One non-returning iteration of the candidate loop as a state
transformer: the bookkeeping a candidate performs when it does not make the
loop return immediately (non-2xx response, thrown exception, or 2xx with
missing/empty models). -/
def agStep {G : Type} (tr : String → String) (st : AgState) : AgCandidate G → AgState
  | AgCandidate.response code msg _ =>
    if code < 200 ∨ 300 ≤ code then
      { st with lastError := msg, lastStatus := some code, priorityStatus := latchPriority st.priorityStatus code }
    else
      { st with hadSuccess := true, lastError := tr emptyModelsKey }
  | AgCandidate.thrown msg status =>
    match status with
    | some s =>
      if s ≠ 0 then
        { st with lastError := msg, lastStatus := some s, priorityStatus := latchPriority st.priorityStatus s }
      else
        { st with lastError := msg }
    | none => { st with lastError := msg }

/-- The candidate failed: a non-2xx response or a thrown exception (so this
candidate contributes no 2xx). -/
def candFails {G : Type} : AgCandidate G → Bool
  | AgCandidate.response code _ _ => decide (code < 200 ∨ 300 ≤ code)
  | AgCandidate.thrown _ _ => true

/-- The candidate produced a genuine 2xx response. -/
def candIs2xx {G : Type} : AgCandidate G → Bool
  | AgCandidate.response code _ _ => decide (200 ≤ code ∧ code < 300)
  | AgCandidate.thrown _ _ => false

/-- The candidate does not make the loop return immediately: it fails, or
it is a 2xx whose payload yields no non-empty group list. -/
def candYieldsNoGroups {G : Type} : AgCandidate G → Bool
  | AgCandidate.response code _ groupsOpt =>
    if 200 ≤ code ∧ code < 300 then
      match groupsOpt with
      | none => true
      | some gs => gs.isEmpty
    else true
  | AgCandidate.thrown _ _ => true

/-- The 403/404 status this candidate latches as priority status, if any
(for thrown outcomes the extracted status must also be truthy). -/
def candPriority {G : Type} : AgCandidate G → Option Nat
  | AgCandidate.response code _ _ => if code = 403 ∨ code = 404 then some code else none
  | AgCandidate.thrown _ status =>
    match status with
    | some s => if s ≠ 0 ∧ (s = 403 ∨ s = 404) then some s else none
    | none => none

/-- The first 403/404 latched over a candidate run (first occurrence wins,
matching `priorityStatus ??=`). -/
def firstPriorityStatus {G : Type} : List (AgCandidate G) → Option Nat
  | [] => none
  | c :: rest => jsCoalesce (candPriority c) (firstPriorityStatus rest)

/-! ## Concrete runs used by witnesses and counterexamples -/

/-- Two Antigravity candidates: a 404, then a 500 (the spec's [A,B]
priority-status example). -/
def c1Cands : List (AgCandidate String) :=
  [AgCandidate.response 404 ("A rejected") none, AgCandidate.response 500 ("B unavailable") none]

/-- Two Antigravity candidates: a 404, then a 2xx whose payload has no
usable `models` map. -/
def c2Cands : List (AgCandidate String) :=
  [AgCandidate.response 404 ("A rejected") none, AgCandidate.response 200 ("") none]

/-- A single failing Antigravity candidate (404) preceding a success. -/
def c3Pre : List (AgCandidate String) :=
  [AgCandidate.response 404 ("A rejected") none]

/-- A trailing Antigravity candidate that would also succeed, to exhibit
that it is never tried. -/
def c3Post : List (AgCandidate String) :=
  [AgCandidate.response 200 ("") (some [("other-group")])]

/-- A single failing Antigravity candidate with a non-priority status. -/
def c9Cands : List (AgCandidate String) :=
  [AgCandidate.response 500 ("boom") none]

/-- A Codex window reporting an explicit out-of-range `used_percent`. -/
def codexOutOfRangeWindow : CodexUsageWindow :=
  { used_percent := some (NumInput.num 150), usedPercent := none, resetLabelRaw := "-" }

/-- A Codex usage payload whose primary window carries
`used_percent = 150`. -/
def codexOutOfRangeInput : CodexUsagePayload :=
  { rate_limit := some { primary_window := some codexOutOfRangeWindow, primaryWindow := none, secondary_window := none, secondaryWindow := none, limit_reached := none, limitReached := none, allowed := none }, rateLimit := none, code_review_rate_limit := none, codeReviewRateLimit := none }

/-- A Codex window with no explicit percent and an available reset label. -/
def codexExhaustedWindow : CodexUsageWindow :=
  { used_percent := none, usedPercent := none, resetLabelRaw := "in 2 hours" }

/-- A Codex window with an explicit in-range percent. -/
def codexExplicitWindow : CodexUsageWindow :=
  { used_percent := some (NumInput.num 37), usedPercent := none, resetLabelRaw := "in 2 hours" }

/-- A raw Gemini-CLI bucket with `remaining_amount = 0` and no explicit
fraction. -/
def geminiZeroAmountBucket : GeminiCliRawBucket :=
  { modelId := none, model_id := some ("gemini-pro"), tokenType := none, token_type := none, remainingFraction := none, remaining_fraction := none, remainingAmount := none, remaining_amount := some (NumInput.num 0), resetTime := none, reset_time := none }

/-- A raw Gemini-CLI bucket with neither amount, fraction, nor reset
time. -/
def geminiBareBucket : GeminiCliRawBucket :=
  { modelId := some ("gemini-flash"), model_id := none, tokenType := none, token_type := none, remainingFraction := none, remaining_fraction := none, remainingAmount := none, remaining_amount := none, resetTime := none, reset_time := none }

/-- A raw Gemini-CLI bucket with no model id at all. -/
def geminiNoModelBucket : GeminiCliRawBucket :=
  { modelId := none, model_id := none, tokenType := none, token_type := none, remainingFraction := none, remaining_fraction := none, remainingAmount := some (NumInput.num 5), resetTime := none, reset_time := none, remaining_amount := none }

/-- A 2xx Gemini-CLI call whose body failed to parse. -/
def geminiEmptyResult : GeminiApiResult :=
  { statusCode := 200, errMessage := (""), payload := GeminiPayloadBuckets.noPayload }

/-- A token file whose `installed` object carries the project id. -/
def tokenFileInstalledSample : TokenFileJson :=
  { project_id := none, projectId := none, installed := some { project_id := some ("proj-from-installed"), projectId := none }, web := some { project_id := some ("proj-from-web"), projectId := none } }

/-! ## Helper lemmas -/

theorem jsCoalesce_none_right {α : Type} (a : Option α) : jsCoalesce a none = a := by
  cases a <;> rfl

theorem jsCoalesce_assoc {α : Type} (a b c : Option α) :
    jsCoalesce (jsCoalesce a b) c = jsCoalesce a (jsCoalesce b c) := by
  cases a <;> rfl

theorem agLoop_cons_noGroups {G : Type} (tr : String → String) (tier : Option String)
    (st : AgState) (tried : Nat) (c : AgCandidate G) (rest : List (AgCandidate G))
    (h : candYieldsNoGroups c = true) :
    agLoop tr tier st tried (c :: rest) = agLoop tr tier (agStep tr st c) (tried + 1) rest := by
  cases c with
  | response code msg groupsOpt =>
    by_cases hc : code < 200 ∨ 300 ≤ code
    · simp only [agLoop, agStep, if_pos hc]
    · have h2 : 200 ≤ code ∧ code < 300 := by omega
      simp only [candYieldsNoGroups, if_pos h2] at h
      cases groupsOpt with
      | none => simp only [agLoop, agStep, if_neg hc]
      | some gs =>
        have hgs : gs.isEmpty = true := h
        simp only [agLoop, agStep, if_neg hc, hgs, if_true]
  | thrown msg status =>
    cases status with
    | none => simp only [agLoop, agStep]
    | some s =>
      by_cases hs : s ≠ 0
      · simp only [agLoop, agStep, if_pos hs]
      · simp only [agLoop, agStep, if_neg hs]

theorem agLoop_append_noGroups {G : Type} (tr : String → String) (tier : Option String)
    (pre : List (AgCandidate G)) :
    ∀ (rest : List (AgCandidate G)) (st : AgState) (tried : Nat),
      pre.all candYieldsNoGroups = true →
      agLoop tr tier st tried (pre ++ rest) =
        agLoop tr tier (List.foldl (agStep tr) st pre) (tried + pre.length) rest := by
  induction pre with
  | nil => intro rest st tried _; simp
  | cons c cs ih =>
    intro rest st tried h
    rw [List.all_cons, Bool.and_eq_true] at h
    rw [List.cons_append, agLoop_cons_noGroups tr tier st tried c (cs ++ rest) h.1,
      ih rest (agStep tr st c) (tried + 1) h.2]
    simp only [List.foldl_cons, List.length_cons]
    have harith : tried + 1 + cs.length = tried + (cs.length + 1) := by omega
    rw [harith]

theorem agStep_priorityStatus {G : Type} (tr : String → String) (st : AgState)
    (c : AgCandidate G) :
    (agStep tr st c).priorityStatus = jsCoalesce st.priorityStatus (candPriority c) := by
  cases c with
  | response code msg groupsOpt =>
    by_cases hc : code < 200 ∨ 300 ≤ code
    · simp only [agStep, if_pos hc, latchPriority, candPriority]
      by_cases hp : code = 403 ∨ code = 404
      · simp [hp]
      · simp [hp, jsCoalesce_none_right]
    · have hp : ¬(code = 403 ∨ code = 404) := by omega
      simp [agStep, if_neg hc, candPriority, hp, jsCoalesce_none_right]
  | thrown msg status =>
    cases status with
    | none => simp [agStep, candPriority, jsCoalesce_none_right]
    | some s =>
      by_cases hs : s ≠ 0
      · simp only [agStep, if_pos hs, latchPriority, candPriority]
        by_cases hp : s = 403 ∨ s = 404
        · simp [hp, hs]
        · simp [hp, hs, jsCoalesce_none_right]
      · simp only [ne_eq, not_not] at hs
        simp [agStep, candPriority, hs, jsCoalesce_none_right]

theorem foldl_agStep_priorityStatus {G : Type} (tr : String → String)
    (cands : List (AgCandidate G)) :
    ∀ st : AgState,
      (List.foldl (agStep tr) st cands).priorityStatus =
        jsCoalesce st.priorityStatus (firstPriorityStatus cands) := by
  induction cands with
  | nil => intro st; simp [firstPriorityStatus, jsCoalesce_none_right]
  | cons c cs ih =>
    intro st
    simp only [List.foldl_cons, firstPriorityStatus]
    rw [ih (agStep tr st c), agStep_priorityStatus, jsCoalesce_assoc]

theorem agStep_hadSuccess {G : Type} (tr : String → String) (st : AgState)
    (c : AgCandidate G) :
    (agStep tr st c).hadSuccess = (st.hadSuccess || candIs2xx c) := by
  cases c with
  | response code msg groupsOpt =>
    by_cases hc : code < 200 ∨ 300 ≤ code
    · have h2 : ¬(200 ≤ code ∧ code < 300) := by omega
      simp [agStep, if_pos hc, candIs2xx, h2]
    · have h2 : 200 ≤ code ∧ code < 300 := by omega
      simp [agStep, if_neg hc, candIs2xx, h2]
  | thrown msg status =>
    cases status with
    | none => simp [agStep, candIs2xx]
    | some s =>
      by_cases hs : s ≠ 0 <;> simp [agStep, hs, candIs2xx]

theorem foldl_agStep_hadSuccess {G : Type} (tr : String → String)
    (cands : List (AgCandidate G)) :
    ∀ st : AgState,
      (List.foldl (agStep tr) st cands).hadSuccess =
        (st.hadSuccess || cands.any candIs2xx) := by
  induction cands with
  | nil => intro st; simp
  | cons c cs ih =>
    intro st
    simp only [List.foldl_cons, List.any_cons]
    rw [ih (agStep tr st c), agStep_hadSuccess, Bool.or_assoc]

theorem candFails_yieldsNoGroups {G : Type} (c : AgCandidate G) (h : candFails c = true) :
    candYieldsNoGroups c = true := by
  cases c with
  | response code msg groupsOpt =>
    simp only [candFails, decide_eq_true_eq] at h
    have h2 : ¬(200 ≤ code ∧ code < 300) := by omega
    simp [candYieldsNoGroups, h2]
  | thrown msg status => rfl

theorem candFails_not2xx {G : Type} (c : AgCandidate G) (h : candFails c = true) :
    candIs2xx c = false := by
  cases c with
  | response code msg groupsOpt =>
    simp only [candFails, decide_eq_true_eq] at h
    simp only [candIs2xx, decide_eq_false_iff_not]
    omega
  | thrown msg status => rfl

theorem all_candFails_yieldsNoGroups {G : Type} (cands : List (AgCandidate G))
    (h : cands.all candFails = true) : cands.all candYieldsNoGroups = true := by
  rw [List.all_eq_true] at h ⊢
  intro c hc
  exact candFails_yieldsNoGroups c (h c hc)

theorem all_candFails_any2xx_false {G : Type} (cands : List (AgCandidate G))
    (h : cands.all candFails = true) : cands.any candIs2xx = false := by
  rw [List.all_eq_true] at h
  cases hany : cands.any candIs2xx with
  | false => rfl
  | true =>
    rw [List.any_eq_true] at hany
    obtain ⟨c, hc, h2⟩ := hany
    rw [candFails_not2xx c (h c hc)] at h2
    exact absurd h2 (by simp)

theorem agLoop_tierAwaited_eq_isSuccess {G : Type} (tr : String → String) (tier : Option String) :
    ∀ (cands : List (AgCandidate G)) (st : AgState) (tried : Nat),
      (agLoop tr tier st tried cands).tierAwaited =
        AgResult.isSuccess (agLoop tr tier st tried cands).result := by
  intro cands
  induction cands with
  | nil =>
    intro st tried
    by_cases h : st.hadSuccess <;> simp [agLoop, agFinish, h, AgResult.isSuccess]
  | cons c cs ih =>
    intro st tried
    cases c with
    | response code msg groupsOpt =>
      by_cases hc : code < 200 ∨ 300 ≤ code
      · simp only [agLoop, if_pos hc]
        exact ih _ _
      · cases groupsOpt with
        | none =>
          simp only [agLoop, if_neg hc]
          exact ih _ _
        | some gs =>
          cases hgs : gs.isEmpty with
          | true =>
            simp only [agLoop, if_neg hc, hgs, if_true]
            exact ih _ _
          | false =>
            simp [agLoop, if_neg hc, hgs, AgResult.isSuccess]
    | thrown msg status =>
      cases status with
      | none =>
        simp only [agLoop]
        exact ih _ _
      | some s =>
        by_cases hs : s ≠ 0
        · simp only [agLoop, if_pos hs]
          exact ih _ _
        · simp only [agLoop, if_neg hs]
          exact ih _ _

/-! ## Claim theorems -/

/-- C1: For every Antigravity quota-fetch run in which every candidate URL
fails (no 2xx ever observed), if any earlier candidate recorded a 403/404,
the thrown error carries that first-seen 403/404 status even when a later
candidate returned a different status. -/
theorem antigravity_allfail_priority_status {G : Type} (tr : String → String)
    (rawAuthIndex : Option String) (a : String) (tier : Option String)
    (cands : List (AgCandidate G)) (s : Nat)
    (hAuth : normalizeAuthIndexValue rawAuthIndex = some a)
    (hfail : cands.all candFails = true)
    (hpri : firstPriorityStatus cands = some s) :
    ∃ msg, (fetchAntigravityQuota tr rawAuthIndex tier cands).result =
      AgResult.error msg (some s) := by
  have hng := all_candFails_yieldsNoGroups cands hfail
  have hrun := agLoop_append_noGroups tr tier cands [] ⟨"", none, none, false⟩ 0 hng
  rw [List.append_nil] at hrun
  have hS : (List.foldl (agStep tr) ⟨"", none, none, false⟩ cands).hadSuccess = false := by
    rw [foldl_agStep_hadSuccess]
    simp [all_candFails_any2xx_false cands hfail]
  have hP : (List.foldl (agStep tr) ⟨"", none, none, false⟩ cands).priorityStatus = some s := by
    rw [foldl_agStep_priorityStatus]
    simpa [jsCoalesce] using hpri
  simp only [fetchAntigravityQuota, hAuth, hrun, agLoop, agFinish, hS, Bool.false_eq_true,
    if_false, hP, jsCoalesce]
  exact ⟨_, rfl⟩

/-- C1 witness: candidates [404, 500] produce an error carrying status
404. -/
theorem antigravity_allfail_priority_status_witness :
    normalizeAuthIndexValue (some ("idx")) = some ("idx") ∧
    c1Cands.all candFails = true ∧
    firstPriorityStatus c1Cands = some 404 ∧
    ∃ msg, (fetchAntigravityQuota (fun s => s) (some ("idx")) none c1Cands).result =
      AgResult.error msg (some 404) := by
  refine ⟨by decide, by decide, by decide, ?_⟩
  exact antigravity_allfail_priority_status (fun s => s) (some ("idx")) ("idx") none
    c1Cands 404 (by decide) (by decide) (by decide)

/-- C2: When at least one Antigravity candidate returned a genuine 2xx but
no candidate yielded a non-empty group list, the fetch returns a successful
empty-groups result carrying the resolved subscription tier, instead of
throwing. -/
theorem antigravity_hadSuccess_empty_groups {G : Type} (tr : String → String)
    (rawAuthIndex : Option String) (a : String) (tier : Option String)
    (cands : List (AgCandidate G))
    (hAuth : normalizeAuthIndexValue rawAuthIndex = some a)
    (hng : cands.all candYieldsNoGroups = true)
    (h2xx : cands.any candIs2xx = true) :
    (fetchAntigravityQuota tr rawAuthIndex tier cands).result = AgResult.success [] tier := by
  have hrun := agLoop_append_noGroups tr tier cands [] ⟨"", none, none, false⟩ 0 hng
  rw [List.append_nil] at hrun
  have hS : (List.foldl (agStep tr) ⟨"", none, none, false⟩ cands).hadSuccess = true := by
    rw [foldl_agStep_hadSuccess]
    simp [h2xx]
  simp only [fetchAntigravityQuota, hAuth, hrun, agLoop, agFinish, hS, if_true]

/-- C2 witness: a 404 candidate followed by a 2xx candidate with an
unusable `models` field yields `Success` with empty groups and the tier. -/
theorem antigravity_hadSuccess_empty_groups_witness :
    normalizeAuthIndexValue (some ("idx")) = some ("idx") ∧
    c2Cands.all candYieldsNoGroups = true ∧
    c2Cands.any candIs2xx = true ∧
    (fetchAntigravityQuota (fun s => s) (some ("idx")) (some ("tier-x")) c2Cands).result =
      AgResult.success [] (some ("tier-x")) := by
  refine ⟨by decide, by decide, by decide, ?_⟩
  exact antigravity_hadSuccess_empty_groups (fun s => s) (some ("idx")) ("idx")
    (some ("tier-x")) c2Cands (by decide) (by decide) (by decide)

/-- C3: The first Antigravity candidate that is 2xx with a non-empty group
list makes the fetch return success with those groups and the joined tier
immediately; no later candidate is requested, and any 403/404 recorded
earlier is overridden. -/
theorem antigravity_first_success_wins {G : Type} (tr : String → String)
    (rawAuthIndex : Option String) (a : String) (tier : Option String)
    (pre post : List (AgCandidate G)) (code : Nat) (msg : String) (gs : List G)
    (hAuth : normalizeAuthIndexValue rawAuthIndex = some a)
    (hpre : pre.all candYieldsNoGroups = true)
    (hcode : 200 ≤ code ∧ code < 300)
    (hgs : gs ≠ []) :
    fetchAntigravityQuota tr rawAuthIndex tier
        (pre ++ AgCandidate.response code msg (some gs) :: post) =
      ⟨AgResult.success gs tier, true, pre.length + 1⟩ := by
  have hrun := agLoop_append_noGroups tr tier pre
    (AgCandidate.response code msg (some gs) :: post) ⟨"", none, none, false⟩ 0 hpre
  have hnc : ¬(code < 200 ∨ 300 ≤ code) := by omega
  have hempty : gs.isEmpty = false := by
    cases gs with
    | nil => exact absurd rfl hgs
    | cons x xs => rfl
  simp only [fetchAntigravityQuota, hAuth, hrun, agLoop, if_neg hnc, hempty,
    Bool.false_eq_true, if_false, Nat.zero_add]

/-- C3 witness: [404, 200-with-groups, trailing 200] returns the groups of
the second candidate and tries exactly two candidates. -/
theorem antigravity_first_success_wins_witness :
    c3Pre.all candYieldsNoGroups = true ∧ (200 ≤ 200 ∧ 200 < 300) ∧
    ([("g-group")] : List String) ≠ [] ∧
    fetchAntigravityQuota (fun s => s) (some ("idx")) none
        (c3Pre ++ AgCandidate.response 200 ("") (some [("g-group")]) :: c3Post) =
      ⟨AgResult.success [("g-group")] none, true, c3Pre.length + 1⟩ := by
  refine ⟨by decide, by omega, by simp, ?_⟩
  exact antigravity_first_success_wins (fun s => s) (some ("idx")) ("idx") none
    c3Pre c3Post 200 ("") [("g-group")] (by decide) (by decide) (by omega) (by simp)

/-- C9 counterexample: a run with a single 500 candidate settles with an
error result while the subscription-tier promise was never awaited, so it
is false that both calls complete before any result — success or error —
is returned. -/
theorem antigravity_error_no_tier_await_cx :
    (fetchAntigravityQuota (fun s => s) (some ("idx")) none c9Cands).tierAwaited = false ∧
    (fetchAntigravityQuota (fun s => s) (some ("idx")) none c9Cands).result =
      AgResult.error ("boom") (some 500) := by
  refine ⟨by decide, by decide⟩

/-- C9 (amended): the subscription-tier call is started before the
candidate loop, and it is awaited before the fetch settles exactly on the
success paths (immediate success or the hadSuccess empty-groups
degradation); on the failure path the fetch throws without awaiting the
tier call. -/
theorem antigravity_tier_await_iff_success {G : Type} (tr : String → String)
    (rawAuthIndex : Option String) (tier : Option String) (cands : List (AgCandidate G)) :
    (fetchAntigravityQuota tr rawAuthIndex tier cands).tierAwaited =
      AgResult.isSuccess (fetchAntigravityQuota tr rawAuthIndex tier cands).result := by
  cases hA : normalizeAuthIndexValue rawAuthIndex with
  | none => simp [fetchAntigravityQuota, hA, AgResult.isSuccess]
  | some a =>
    simp only [fetchAntigravityQuota, hA]
    exact agLoop_tierAwaited_eq_isSuccess tr tier cands ⟨"", none, none, false⟩ 0


theorem jsCoalesce_none_left {α : Type} (b : Option α) : jsCoalesce none b = b := rfl

theorem geminiFallbackFraction_some (q : ℚ) (r : Option String) :
    geminiFallbackFraction (some q) r = if q ≤ 0 then some 0 else none := rfl

theorem geminiFallbackFraction_reset (s : String) :
    geminiFallbackFraction none (some s) = some 0 := rfl

theorem geminiFallbackFraction_none : geminiFallbackFraction none none = none := rfl

theorem normalizeQuotaFraction_range (v : Option NumInput) (q : ℚ)
    (h : normalizeQuotaFraction v = some q) : 0 ≤ q ∧ q ≤ 1 := by
  unfold normalizeQuotaFraction at h
  cases hv : normalizeNumberValue v with
  | none => rw [hv] at h; exact absurd h (by simp)
  | some r =>
    rw [hv] at h
    have h2 : (if 0 ≤ r ∧ r ≤ 1 then some r else none) = some q := h
    by_cases hr : 0 ≤ r ∧ r ≤ 1
    · rw [if_pos hr] at h2
      injection h2 with h2
      subst h2
      exact hr
    · rw [if_neg hr] at h2
      exact absurd h2 (by simp)

theorem addWindow_usedPercent_explicit (tr : String → String) (id labelKey : String)
    (sw : CodexUsageWindow) (lr al : Option Bool) (v : ℚ)
    (hv : normalizeNumberValue (jsCoalesce sw.used_percent sw.usedPercent) = some v) :
    Option.map CodexQuotaWindow.usedPercent (addWindow tr id labelKey (some sw) lr al) =
      some (some v) := by
  unfold addWindow
  dsimp only
  rw [hv]
  rfl

theorem addWindow_usedPercent_default (tr : String → String) (id labelKey : String)
    (sw : CodexUsageWindow) (lr al : Option Bool)
    (hv : normalizeNumberValue (jsCoalesce sw.used_percent sw.usedPercent) = none) :
    Option.map CodexQuotaWindow.usedPercent (addWindow tr id labelKey (some sw) lr al) =
      some (if ((lr == some true) || (al == some false)) && (formatCodexResetLabel sw != "-") then some (100 : ℚ) else none) := by
  unfold addWindow
  dsimp only
  rw [hv]
  rfl

theorem parseGeminiBucket_fraction_eq (b : GeminiCliRawBucket) (m : String)
    (hm : normalizeStringValue (jsCoalesce b.modelId b.model_id) = some m) :
    Option.map GeminiCliParsedBucket.remainingFraction (parseGeminiBucket b) =
      some (jsCoalesce
        (normalizeQuotaFraction (jsCoalesce b.remainingFraction b.remaining_fraction))
        (geminiFallbackFraction
          (normalizeNumberValue (jsCoalesce b.remainingAmount b.remaining_amount))
          (normalizeStringValue (jsCoalesce b.resetTime b.reset_time)))) := by
  unfold parseGeminiBucket
  rw [hm]
  rfl

/-- Any window produced by `addWindow` either has a usedPercent within
[0,100] (or null) or carries the explicit normalized percent of its source
window, passed through unclamped. -/
theorem addWindow_usedPercent_range (tr : String → String) (id labelKey : String)
    (wopt : Option CodexUsageWindow) (lr al : Option Bool) (w : CodexQuotaWindow)
    (h : addWindow tr id labelKey wopt lr al = some w) (q : ℚ)
    (hq : w.usedPercent = some q) :
    (0 ≤ q ∧ q ≤ 100) ∨
      ∃ sw, wopt = some sw ∧
        normalizeNumberValue (jsCoalesce sw.used_percent sw.usedPercent) = some q := by
  cases wopt with
  | none => exact absurd h (by simp [addWindow])
  | some sw =>
    cases hv : normalizeNumberValue (jsCoalesce sw.used_percent sw.usedPercent) with
    | some v =>
      have hup := addWindow_usedPercent_explicit tr id labelKey sw lr al v hv
      rw [h, Option.map_some', hq] at hup
      injection hup with hup
      right
      exact ⟨sw, rfl, by rw [hv, hup]⟩
    | none =>
      have hup := addWindow_usedPercent_default tr id labelKey sw lr al hv
      rw [h, Option.map_some', hq] at hup
      injection hup with hup
      by_cases hb : (((lr == some true) || (al == some false)) && (formatCodexResetLabel sw != "-")) = true
      · rw [if_pos hb] at hup
        injection hup with hup
        subst hup
        left
        norm_num
      · rw [if_neg hb] at hup
        exact absurd hup (by simp)

/-- C4: Codex usedPercent computation: with no explicit percent, a window
whose limit is reached (limit_reached=true or allowed=false) and whose
reset label is available gets usedPercent 100; with limit_reached=false and
allowed not false it stays null; an explicit normalized percent is used
as-is. -/
theorem codex_usedPercent_synthesis (tr : String → String) (id labelKey : String)
    (w : CodexUsageWindow) (lr al : Option Bool) :
    (normalizeNumberValue (jsCoalesce w.used_percent w.usedPercent) = none →
      (lr = some true ∨ al = some false) → formatCodexResetLabel w ≠ "-" →
      Option.map CodexQuotaWindow.usedPercent (addWindow tr id labelKey (some w) lr al) =
        some (some (100 : ℚ))) ∧
    (normalizeNumberValue (jsCoalesce w.used_percent w.usedPercent) = none →
      lr = some false → al ≠ some false →
      Option.map CodexQuotaWindow.usedPercent (addWindow tr id labelKey (some w) lr al) =
        some none) ∧
    (∀ v : ℚ, normalizeNumberValue (jsCoalesce w.used_percent w.usedPercent) = some v →
      Option.map CodexQuotaWindow.usedPercent (addWindow tr id labelKey (some w) lr al) =
        some (some v)) := by
  refine ⟨?_, ?_, ?_⟩
  · intro hraw hlim hreset
    have hb : ((lr == some true) || (al == some false)) = true := by
      rcases hlim with h | h <;> subst h <;> simp
    have hr : (formatCodexResetLabel w != "-") = true := by
      simpa [bne_iff_ne] using hreset
    rw [addWindow_usedPercent_default tr id labelKey w lr al hraw, hb, hr]
    rfl
  · intro hraw hlr hal
    subst hlr
    have hb : ((some false == some true) || (al == some false)) = false := by
      cases al with
      | none => simp
      | some b => cases b <;> simp_all
    rw [addWindow_usedPercent_default tr id labelKey w (some false) al hraw, hb]
    rfl
  · intro v hraw
    exact addWindow_usedPercent_explicit tr id labelKey w lr al v hraw

/-- C4 witness: a reached-limit window with a reset label gets 100, the
same window not limit-reached stays null, and an explicit 37 percent is
passed through. -/
theorem codex_usedPercent_synthesis_witness :
    (Option.map CodexQuotaWindow.usedPercent
        (addWindow (fun s => s) primaryId primaryWindowKey (some codexExhaustedWindow) (some true) none) =
      some (some (100 : ℚ))) ∧
    (Option.map CodexQuotaWindow.usedPercent
        (addWindow (fun s => s) primaryId primaryWindowKey (some codexExhaustedWindow) (some false) none) =
      some none) ∧
    (Option.map CodexQuotaWindow.usedPercent
        (addWindow (fun s => s) primaryId primaryWindowKey (some codexExplicitWindow) (some true) none) =
      some (some (37 : ℚ))) := by
  refine ⟨?_, ?_, ?_⟩
  · exact (codex_usedPercent_synthesis (fun s => s) primaryId primaryWindowKey
      codexExhaustedWindow (some true) none).1 (by decide) (Or.inl rfl) (by decide)
  · exact (codex_usedPercent_synthesis (fun s => s) primaryId primaryWindowKey
      codexExhaustedWindow (some false) none).2.1 (by decide) rfl (by decide)
  · exact (codex_usedPercent_synthesis (fun s => s) primaryId primaryWindowKey
      codexExplicitWindow (some true) none).2.2 37 (by decide)

/-- C5: Gemini bucket parsing: entries without a model id are dropped; a
retained entry with no explicit fraction falls back to fraction 0 when the
remaining amount is present and ≤ 0, null when the amount is positive, 0
when no amount but a reset time is present, and null when neither amount,
fraction, nor reset time is present. -/
theorem gemini_bucket_fraction_fallback (b : GeminiCliRawBucket) :
    (normalizeStringValue (jsCoalesce b.modelId b.model_id) = none →
      parseGeminiBucket b = none) ∧
    (∀ m, normalizeStringValue (jsCoalesce b.modelId b.model_id) = some m →
      normalizeQuotaFraction (jsCoalesce b.remainingFraction b.remaining_fraction) = none →
      ((∀ q : ℚ, normalizeNumberValue (jsCoalesce b.remainingAmount b.remaining_amount) = some q →
          q ≤ 0 →
          Option.map GeminiCliParsedBucket.remainingFraction (parseGeminiBucket b) =
            some (some 0)) ∧
        (∀ q : ℚ, normalizeNumberValue (jsCoalesce b.remainingAmount b.remaining_amount) = some q →
          0 < q →
          Option.map GeminiCliParsedBucket.remainingFraction (parseGeminiBucket b) = some none) ∧
        (normalizeNumberValue (jsCoalesce b.remainingAmount b.remaining_amount) = none →
          ∀ r, normalizeStringValue (jsCoalesce b.resetTime b.reset_time) = some r →
          Option.map GeminiCliParsedBucket.remainingFraction (parseGeminiBucket b) =
            some (some 0)) ∧
        (normalizeNumberValue (jsCoalesce b.remainingAmount b.remaining_amount) = none →
          normalizeStringValue (jsCoalesce b.resetTime b.reset_time) = none →
          Option.map GeminiCliParsedBucket.remainingFraction (parseGeminiBucket b) =
            some none))) := by
  constructor
  · intro h
    unfold parseGeminiBucket
    rw [h]
  · intro m hm hfrac
    refine ⟨?_, ?_, ?_, ?_⟩
    · intro q hq hle
      rw [parseGeminiBucket_fraction_eq b m hm, hfrac, jsCoalesce_none_left, hq,
        geminiFallbackFraction_some, if_pos hle]
    · intro q hq hgt
      rw [parseGeminiBucket_fraction_eq b m hm, hfrac, jsCoalesce_none_left, hq,
        geminiFallbackFraction_some, if_neg (not_le.mpr hgt)]
    · intro hq r hr
      rw [parseGeminiBucket_fraction_eq b m hm, hfrac, jsCoalesce_none_left, hq, hr,
        geminiFallbackFraction_reset]
    · intro hq hr
      rw [parseGeminiBucket_fraction_eq b m hm, hfrac, jsCoalesce_none_left, hq, hr,
        geminiFallbackFraction_none]

/-- C5 witness: an amount-0 bucket gets fraction 0, a bare bucket stays
null, and a bucket without model id is dropped. -/
theorem gemini_bucket_fraction_fallback_witness :
    Option.map GeminiCliParsedBucket.remainingFraction (parseGeminiBucket geminiZeroAmountBucket) =
      some (some 0) ∧
    Option.map GeminiCliParsedBucket.remainingFraction (parseGeminiBucket geminiBareBucket) =
      some none ∧
    parseGeminiBucket geminiNoModelBucket = none := by
  refine ⟨?_, ?_, ?_⟩
  · exact (((gemini_bucket_fraction_fallback geminiZeroAmountBucket).2 ("gemini-pro")
      (by decide) (by decide)).1) 0 (by decide) (by decide)
  · exact (((gemini_bucket_fraction_fallback geminiBareBucket).2 ("gemini-flash")
      (by decide) (by decide)).2.2.2) (by decide) (by decide)
  · exact (gemini_bucket_fraction_fallback geminiNoModelBucket).1 (by decide)

/-- C6 counterexample: a payload whose primary window carries an explicit
`used_percent = 150` produces a quota window whose usedPercent is 150,
which is neither null nor within [0,100]. -/
theorem codex_percent_out_of_range_cx :
    ∃ w ∈ buildCodexQuotaWindows (fun s => s) codexOutOfRangeInput,
      ∃ q : ℚ, w.usedPercent = some q ∧ ¬(0 ≤ q ∧ q ≤ 100) := by
  refine ⟨⟨primaryId, primaryWindowKey, primaryWindowKey, some 150, ("-")⟩, ?_, 150, rfl, ?_⟩
  · decide
  · norm_num

/-- C6 (amended): every fraction field of a parsed Gemini-CLI bucket is in
[0,1] or null; a Codex usedPercent is within [0,100] or null whenever it is
not an explicit vendor-supplied used_percent value, but an explicit value
is passed through unclamped and may lie outside [0,100]. -/
theorem quota_range_invariant_amended :
    (∀ (bs : List GeminiCliRawBucket) (p : GeminiCliParsedBucket), p ∈ parseGeminiBuckets bs →
      ∀ q : ℚ, p.remainingFraction = some q → 0 ≤ q ∧ q ≤ 1) ∧
    (∀ (tr : String → String) (payload : CodexUsagePayload) (w : CodexQuotaWindow),
      w ∈ buildCodexQuotaWindows tr payload → ∀ q : ℚ, w.usedPercent = some q →
      (0 ≤ q ∧ q ≤ 100) ∨
        ∃ sw ∈ payloadSourceWindows payload,
          normalizeNumberValue (jsCoalesce sw.used_percent sw.usedPercent) = some q) := by
  constructor
  · intro bs p hp q hq
    rw [parseGeminiBuckets, List.mem_filterMap] at hp
    obtain ⟨b, _, hb⟩ := hp
    cases hm : normalizeStringValue (jsCoalesce b.modelId b.model_id) with
    | none =>
      unfold parseGeminiBucket at hb
      rw [hm] at hb
      exact absurd hb (by simp)
    | some m =>
      have hfr := parseGeminiBucket_fraction_eq b m hm
      rw [hb, Option.map_some', hq] at hfr
      injection hfr with hfr
      cases hf : normalizeQuotaFraction (jsCoalesce b.remainingFraction b.remaining_fraction) with
      | some r =>
        rw [hf, jsCoalesce] at hfr
        injection hfr with hfr
        subst hfr
        exact normalizeQuotaFraction_range _ _ hf
      | none =>
        rw [hf, jsCoalesce_none_left] at hfr
        cases ha : normalizeNumberValue (jsCoalesce b.remainingAmount b.remaining_amount) with
        | some amount =>
          rw [ha, geminiFallbackFraction_some] at hfr
          by_cases hle : amount ≤ 0
          · rw [if_pos hle] at hfr
            injection hfr with hfr
            subst hfr
            norm_num
          · rw [if_neg hle] at hfr
            exact absurd hfr (by simp)
        | none =>
          rw [ha] at hfr
          cases hr : normalizeStringValue (jsCoalesce b.resetTime b.reset_time) with
          | some r2 =>
            rw [hr, geminiFallbackFraction_reset] at hfr
            injection hfr with hfr
            subst hfr
            norm_num
          | none =>
            rw [hr, geminiFallbackFraction_none] at hfr
            exact absurd hfr (by simp)
  · intro tr payload w hw q hq
    unfold buildCodexQuotaWindows at hw
    simp only [List.mem_append, Option.mem_toList, Option.mem_def] at hw
    rcases hw with (h | h) | h
    · rcases addWindow_usedPercent_range _ _ _ _ _ _ _ h q hq with hrange | ⟨sw, hswo, hnorm⟩
      · exact Or.inl hrange
      · refine Or.inr ⟨sw, ?_, hnorm⟩
        simp [payloadSourceWindows, hswo]
    · rcases addWindow_usedPercent_range _ _ _ _ _ _ _ h q hq with hrange | ⟨sw, hswo, hnorm⟩
      · exact Or.inl hrange
      · refine Or.inr ⟨sw, ?_, hnorm⟩
        simp [payloadSourceWindows, hswo]
    · rcases addWindow_usedPercent_range _ _ _ _ _ _ _ h q hq with hrange | ⟨sw, hswo, hnorm⟩
      · exact Or.inl hrange
      · refine Or.inr ⟨sw, ?_, hnorm⟩
        simp [payloadSourceWindows, hswo]

/-- C6 witness for the amended invariant, at the concrete zero-amount
Gemini bucket and the out-of-range Codex payload. -/
theorem quota_range_invariant_amended_witness :
    ((0 : ℚ) ≤ 0 ∧ (0 : ℚ) ≤ 1) ∧
    ((0 ≤ (150 : ℚ) ∧ (150 : ℚ) ≤ 100) ∨
      ∃ sw ∈ payloadSourceWindows codexOutOfRangeInput,
        normalizeNumberValue (jsCoalesce sw.used_percent sw.usedPercent) = some 150) := by
  constructor
  · exact quota_range_invariant_amended.1 [geminiZeroAmountBucket]
      ⟨("gemini-pro"), none, some 0, some 0, none⟩ (by decide) 0 (by decide)
  · exact quota_range_invariant_amended.2 (fun s => s) codexOutOfRangeInput
      ⟨primaryId, primaryWindowKey, primaryWindowKey, some 150, ("-")⟩ (by decide) 150 (by decide)

/-- C7: Antigravity project-id resolution: the top-level
project_id/projectId wins, else the installed object, else the web object;
download failure, empty content, parse failure, or a total miss all fall
back to the hard-coded default project id (the resolver is total, so this
step never fails the fetch). -/
theorem antigravity_project_id_resolution :
    resolveAntigravityProjectId none = DEFAULT_ANTIGRAVITY_PROJECT_ID ∧
    resolveAntigravityProjectId (some TokenFileText.emptyContent) = DEFAULT_ANTIGRAVITY_PROJECT_ID ∧
    resolveAntigravityProjectId (some TokenFileText.unparsable) = DEFAULT_ANTIGRAVITY_PROJECT_ID ∧
    (∀ (j : TokenFileJson) (s : String),
      normalizeStringValue (jsCoalesce j.project_id j.projectId) = some s →
      resolveAntigravityProjectId (some (TokenFileText.parsed j)) = s) ∧
    (∀ (j : TokenFileJson) (s : String),
      normalizeStringValue (jsCoalesce j.project_id j.projectId) = none →
      j.installed.bind (fun i => normalizeStringValue (jsCoalesce i.project_id i.projectId)) = some s →
      resolveAntigravityProjectId (some (TokenFileText.parsed j)) = s) ∧
    (∀ (j : TokenFileJson) (s : String),
      normalizeStringValue (jsCoalesce j.project_id j.projectId) = none →
      j.installed.bind (fun i => normalizeStringValue (jsCoalesce i.project_id i.projectId)) = none →
      j.web.bind (fun w => normalizeStringValue (jsCoalesce w.project_id w.projectId)) = some s →
      resolveAntigravityProjectId (some (TokenFileText.parsed j)) = s) ∧
    (∀ j : TokenFileJson,
      normalizeStringValue (jsCoalesce j.project_id j.projectId) = none →
      j.installed.bind (fun i => normalizeStringValue (jsCoalesce i.project_id i.projectId)) = none →
      j.web.bind (fun w => normalizeStringValue (jsCoalesce w.project_id w.projectId)) = none →
      resolveAntigravityProjectId (some (TokenFileText.parsed j)) = DEFAULT_ANTIGRAVITY_PROJECT_ID) := by
  refine ⟨rfl, rfl, rfl, ?_, ?_, ?_, ?_⟩
  · intro j s h
    unfold resolveAntigravityProjectId
    dsimp only
    rw [h]
  · intro j s h1 h2
    unfold resolveAntigravityProjectId
    dsimp only
    rw [h1, h2]
  · intro j s h1 h2 h3
    unfold resolveAntigravityProjectId
    dsimp only
    rw [h1, h2, h3]
  · intro j h1 h2 h3
    unfold resolveAntigravityProjectId
    dsimp only
    rw [h1, h2, h3]

/-- C7 witness: with no top-level id, the installed object's id wins over
the web object's. -/
theorem antigravity_project_id_resolution_witness :
    resolveAntigravityProjectId (some (TokenFileText.parsed tokenFileInstalledSample)) =
      ("proj-from-installed") := by
  exact antigravity_project_id_resolution.2.2.2.2.1 tokenFileInstalledSample
    ("proj-from-installed") (by decide) (by decide)

/-- C8: the Gemini-CLI registry filter accepts a credential iff it is a
Gemini-CLI credential, not disabled, and not a runtime-only credential
lacking persisted project context (a runtime-only credential with persisted
project context is accepted). -/
theorem gemini_cli_filter_iff (f : AuthFileItem) :
    geminiCliFilterFn f = true ↔
      (isGeminiCliFile f = true ∧ f.disabled = false ∧
        ¬(f.runtimeOnly = true ∧ f.hasPersistedProjectContext = false)) := by
  rcases f with ⟨pt, d, ro, ctx⟩
  simp only [geminiCliFilterFn, isGeminiCliFile, isDisabledAuthFile, isRuntimeOnlyAuthFile]
  cases d <;> cases ro <;> cases ctx <;> simp

/-- C10: a Gemini-CLI fetch whose single call returns 2xx but whose payload
has no `buckets` array, a non-array `buckets` value, or an empty one
returns Success with an empty bucket list rather than an error. -/
theorem gemini_empty_buckets_success {B : Type} (tr : String → String)
    (build : List GeminiCliParsedBucket → List B)
    (rawAuthIndex projectId : Option String) (a p : String) (result : GeminiApiResult)
    (hAuth : normalizeAuthIndexValue rawAuthIndex = some a)
    (hProj : projectId = some p)
    (hOk : 200 ≤ result.statusCode ∧ result.statusCode < 300)
    (hPayload : result.payload = GeminiPayloadBuckets.noPayload ∨
      result.payload = GeminiPayloadBuckets.bucketsNotArray ∨
      result.payload = GeminiPayloadBuckets.bucketsArr []) :
    fetchGeminiCliQuota tr build rawAuthIndex projectId result =
      GeminiFetchOutcome.success [] := by
  have hnc : ¬(result.statusCode < 200 ∨ 300 ≤ result.statusCode) := by omega
  have hempty : (geminiBucketsOf result.payload).isEmpty = true := by
    rcases hPayload with h | h | h <;> rw [h] <;> rfl
  subst hProj
  simp only [fetchGeminiCliQuota, hAuth, if_neg hnc, hempty, if_true]

/-- C10 witness: a 2xx call whose body failed to parse yields Success with
no buckets. -/
theorem gemini_empty_buckets_success_witness :
    fetchGeminiCliQuota (fun s => s) (fun ps => ps) (some ("idx")) (some ("proj-1"))
      geminiEmptyResult = GeminiFetchOutcome.success [] := by
  exact gemini_empty_buckets_success (fun s => s) (fun ps => ps) (some ("idx")) (some ("proj-1"))
    ("idx") ("proj-1") geminiEmptyResult (by decide) rfl (by decide) (Or.inl rfl)
